import Mathlib

/-!
Verification of the mean-field Bayesian convolution layer family and the
ensemble evaluation utilities of the scalable Bayesian deep-learning library.

The embedding models tensors over `ℚ` as explicit dimensions plus a total
indexing function; the real exponential and square root that appear in the
source (`psi.exp()`, `.sqrt_()`) are abstracted as parameters `expQ sqrtQ`
of every statement, since the statements under verification are structural
identities that hold for any interpretation of those functions.  Random
draws (`torch.randn_like`, `torch.empty(...).normal_`, `.uniform_`) are
modelled by an explicit noise oracle passed to the forward pass.
-/

set_option maxHeartbeats 1000000

namespace ScalableBDL

/-- A 4-dimensional tensor `[n, c, h, w]`: dimensions plus a total indexing
function (entries at out-of-range indices are irrelevant to every statement
below). -/
@[ext]
structure Tensor4 where
  n : ℕ
  c : ℕ
  h : ℕ
  w : ℕ
  data : ℕ → ℕ → ℕ → ℕ → ℚ

/-- A 5-dimensional tensor `[n, s, c, h, w]` (batch, Monte-Carlo sample,
channel, height, width), used by the parallel-evaluation path. -/
@[ext]
structure Tensor5 where
  n : ℕ
  s : ℕ
  c : ℕ
  h : ℕ
  w : ℕ
  data : ℕ → ℕ → ℕ → ℕ → ℕ → ℚ

def Tensor4.dims (t : Tensor4) : List ℕ := [t.n, t.c, t.h, t.w]

def Tensor5.dims (t : Tensor5) : List ℕ := [t.n, t.s, t.c, t.h, t.w]

/-- Model of `torch.sign` on rationals. -/
def qsign (x : ℚ) : ℚ := if x < 0 then -1 else if x = 0 then 0 else 1

/-- Output spatial size of a 2-d convolution along one axis
(`(in + 2*padding - dilation*(kernel-1) - 1) / stride + 1`). -/
def convOutDim (inDim k stride pad dil : ℕ) : ℕ :=
  (inDim + 2 * pad - dil * (k - 1) - 1) / stride + 1

/-- Reading a zero-padded tensor: index `(i, j)` into the padded plane; the
pad border (and anything beyond it) reads as `0`. -/
def Tensor4.padAt (t : Tensor4) (pad b c i j : ℕ) : ℚ :=
  if pad ≤ i ∧ pad ≤ j ∧ i < t.h + pad ∧ j < t.w + pad then
    t.data b c (i - pad) (j - pad)
  else 0

/-- Model of `torch.nn.functional.conv2d` with stride/padding/dilation/groups, over
rational tensors.  Output channel `oc` belongs to group
`oc / (weight.n / groups)` and convolves input channels
`[g * weight.c, (g+1) * weight.c)` of its group `g`. -/
def conv2d (input weight : Tensor4) (bias : Option (ℕ → ℚ))
    (stride pad dil groups : ℕ) : Tensor4 where
  n := input.n
  c := weight.n
  h := convOutDim input.h weight.h stride pad dil
  w := convOutDim input.w weight.w stride pad dil
  data := fun b oc i j =>
    (∑ ic ∈ Finset.range weight.c, ∑ ki ∈ Finset.range weight.h,
      ∑ kj ∈ Finset.range weight.w,
        input.padAt pad b (oc / (weight.n / groups) * weight.c + ic)
            (i * stride + ki * dil) (j * stride + kj * dil)
          * weight.data oc ic ki kj)
    + (match bias with
       | none => 0
       | some f => f oc)

/-- Modelled from the spec: `MulExpAddFunction`
(`scalablebdl/mean_field/utils.py`, not among the available sources) is the
fused reparameterization primitive whose forward value is
`eps * exp(psi) + mu` elementwise; its custom gradient rule does not affect
forward values.  `expQ` abstracts the real exponential. -/
def mulExpAdd (expQ : ℚ → ℚ) (eps psi mu : ℚ) : ℚ := eps * expQ psi + mu

/-- The state of a `BayesConv2dMF` module (`scalablebdl/mean_field/conv.py`):
shape hyperparameters, the Gaussian posterior parameters (as indexing
functions), and the sampling-mode flags. -/
structure BayesConv2dMF where
  in_channels : ℕ
  out_channels : ℕ
  kernel_h : ℕ
  kernel_w : ℕ
  stride : ℕ
  padding : ℕ
  dilation : ℕ
  groups : ℕ
  bias : Bool
  weight_mu : ℕ → ℕ → ℕ → ℕ → ℚ
  weight_psi : ℕ → ℕ → ℕ → ℕ → ℚ
  bias_mu : ℕ → ℚ
  bias_psi : ℕ → ℚ
  deterministic : Bool
  num_mc_samples : ℕ
  parallel_eval : Bool
  local_reparam : Bool
  flipout : Bool
  single_eps : Bool

/-- Value of `in_channels // groups`, the per-group input channel count of the
weight tensors. -/
def BayesConv2dMF.inPerGroup (l : BayesConv2dMF) : ℕ := l.in_channels / l.groups

/-- The posterior-mean weight tensor, of shape
`(out_channels, in_channels // groups, kernel_h, kernel_w)`. -/
def BayesConv2dMF.weightMuT (l : BayesConv2dMF) : Tensor4 :=
  ⟨l.out_channels, l.inPerGroup, l.kernel_h, l.kernel_w, l.weight_mu⟩

/-- The log-std weight tensor, same shape as `weightMuT`. -/
def BayesConv2dMF.weightPsiT (l : BayesConv2dMF) : Tensor4 :=
  ⟨l.out_channels, l.inPerGroup, l.kernel_h, l.kernel_w, l.weight_psi⟩

/-- The bias argument passed to the deterministic convolution:
`bias_mu` when a bias is configured, `None` otherwise. -/
def BayesConv2dMF.biasOpt (l : BayesConv2dMF) : Option (ℕ → ℚ) :=
  if l.bias then some l.bias_mu else none

/-- The random draws consumed by one `BayesConv2dMF.forward` call: each
field stands for one of the generator calls in the source (only the
field(s) of the branch actually taken are read). -/
structure Noise where
  w_eps : ℕ → ℕ → ℕ → ℕ → ℚ
  act_eps : ℕ → ℕ → ℕ → ℕ → ℚ
  u_in : ℕ → ℕ → ℚ
  u_out : ℕ → ℕ → ℚ
  batch_eps : ℕ → ℕ → ℕ → ℕ → ℕ → ℚ
  bias_eps : ℕ → ℕ → ℚ

/-- Result of a forward call: a 4-d tensor in every mode except
parallel evaluation, which yields a 5-d tensor. -/
inductive ConvOut where
  | t4 : Tensor4 → ConvOut
  | t5 : Tensor5 → ConvOut

/-- Model of `BayesConv2dMF.forward` (conv.py lines 99-191) on a plain 4-d input
batch.  The `assert not self.bias` statements are modelled as
`Except.error ()`.  Branch precedence follows the source exactly:
deterministic, then (non-parallel) single_eps / local_reparam / flipout /
full-independent-sampling, then the parallel-evaluation path. -/
def convForward (expQ sqrtQ : ℚ → ℚ) (l : BayesConv2dMF) (input : Tensor4)
    (ns : Noise) : Except Unit ConvOut :=
  if l.deterministic then
    .ok (.t4 (conv2d input l.weightMuT l.biasOpt l.stride l.padding l.dilation l.groups))
  else if l.parallel_eval = false then
    if l.single_eps then
      if l.bias then .error () else
      let weight : Tensor4 :=
        ⟨l.out_channels, l.inPerGroup, l.kernel_h, l.kernel_w,
          fun o c i j => ns.w_eps o c i j * expQ (l.weight_psi o c i j)
            + l.weight_mu o c i j⟩
      .ok (.t4 (conv2d input weight none l.stride l.padding l.dilation l.groups))
    else if l.local_reparam then
      if l.bias then .error () else
      let act_mu := conv2d input l.weightMuT none l.stride l.padding l.dilation l.groups
      let sqInput : Tensor4 :=
        { input with data := fun b c i j => input.data b c i j ^ 2 }
      let expPsi2 : Tensor4 :=
        { l.weightPsiT with data := fun o c i j => expQ (l.weight_psi o c i j * 2) }
      let act_var := conv2d sqInput expPsi2 none l.stride l.padding l.dilation l.groups
      let resData : ℕ → ℕ → ℕ → ℕ → ℚ := fun b o i j =>
        ns.act_eps b o i j * sqrtQ (max (act_var.data b o i j) (1 / 100000000))
          + act_mu.data b o i j
      .ok (.t4 { act_mu with data := resData })
    else if l.flipout then
      if l.bias then .error () else
      let outputs := conv2d input l.weightMuT none l.stride l.padding l.dilation l.groups
      let dkData : ℕ → ℕ → ℕ → ℕ → ℚ := fun o c i j =>
        ns.w_eps o c i j * expQ (l.weight_psi o c i j)
      let delta_kernel : Tensor4 := { l.weightPsiT with data := dkData }
      let pertInput : Tensor4 :=
        { input with data := fun b c i j => input.data b c i j * qsign (ns.u_in b c) }
      let perturbed := conv2d pertInput delta_kernel none l.stride l.padding l.dilation l.groups
      let resData : ℕ → ℕ → ℕ → ℕ → ℚ := fun b o i j =>
        outputs.data b o i j + perturbed.data b o i j * qsign (ns.u_out b o)
      .ok (.t4 { outputs with data := resData })
    else
      let bs := input.n
      let weight : Tensor4 :=
        ⟨bs * l.out_channels, l.inPerGroup, l.kernel_h, l.kernel_w,
          fun q c i j =>
            mulExpAdd expQ (ns.batch_eps (q / l.out_channels) (q % l.out_channels) c i j)
              (l.weight_psi (q % l.out_channels) c i j)
              (l.weight_mu (q % l.out_channels) c i j)⟩
      let inputR : Tensor4 :=
        ⟨1, bs * input.c, input.h, input.w,
          fun _ q i j => input.data (q / input.c) (q % input.c) i j⟩
      let out0 := conv2d inputR weight none l.stride l.padding l.dilation (l.groups * bs)
      let outV : Tensor4 :=
        ⟨bs, l.out_channels, out0.h, out0.w,
          fun b o i j => out0.data 0 (b * l.out_channels + o) i j⟩
      if l.bias then
        let resData : ℕ → ℕ → ℕ → ℕ → ℚ := fun b o i j =>
          outV.data b o i j
            + mulExpAdd expQ (ns.bias_eps b o) (l.bias_psi o) (l.bias_mu o)
        .ok (.t4 { outV with data := resData })
      else .ok (.t4 outV)
  else
    let S := l.num_mc_samples
    let inputP : Tensor5 :=
      ⟨input.n, S, input.c, input.h, input.w, fun b _ c i j => input.data b c i j⟩
    let weight : Tensor4 :=
      ⟨S * l.out_channels, l.inPerGroup, l.kernel_h, l.kernel_w,
        fun q c i j =>
          mulExpAdd expQ (ns.batch_eps (q / l.out_channels) (q % l.out_channels) c i j)
            (l.weight_psi (q % l.out_channels) c i j)
            (l.weight_mu (q % l.out_channels) c i j)⟩
    let inputF : Tensor4 :=
      ⟨inputP.n, S * inputP.c, inputP.h, inputP.w,
        fun b q i j => inputP.data b (q / inputP.c) (q % inputP.c) i j⟩
    let out0 := conv2d inputF weight none l.stride l.padding l.dilation (l.groups * S)
    let outV : Tensor5 :=
      ⟨out0.n, S, l.out_channels, out0.h, out0.w,
        fun b s o i j => out0.data b (s * l.out_channels + o) i j⟩
    if l.bias then
      let resData : ℕ → ℕ → ℕ → ℕ → ℕ → ℚ := fun b s o i j =>
        outV.data b s o i j
          + mulExpAdd expQ (ns.bias_eps s o) (l.bias_psi o) (l.bias_mu o)
      .ok (.t5 { outV with data := resData })
    else .ok (.t5 outV)

/-- The all-zero 4-d tensor (junk value for extractors). -/
def zeroT4 : Tensor4 := ⟨0, 0, 0, 0, fun _ _ _ _ => 0⟩

/-- Extract the 4-d tensor of a successful non-parallel forward result. -/
def outT4 : Except Unit ConvOut → Tensor4
  | .ok (.t4 t) => t
  | _ => zeroT4

/-- Whether a forward call raised the modelled assertion error. -/
def isErr : Except Unit ConvOut → Bool
  | .error _ => true
  | _ => false

/-- The dimension list of a forward result, `none` on assertion failure. -/
def outDims : Except Unit ConvOut → Option (List ℕ)
  | .ok (.t4 t) => some t.dims
  | .ok (.t5 t) => some t.dims
  | .error _ => none

/-- The shape the deterministic layer produces on `input`:
`[B, out_channels, H_out, W_out]`. -/
def detDims (l : BayesConv2dMF) (input : Tensor4) : List ℕ :=
  [input.n, l.out_channels,
   convOutDim input.h l.kernel_h l.stride l.padding l.dilation,
   convOutDim input.w l.kernel_w l.stride l.padding l.dilation]

/-- Shape-level record produced by a successful `_BayesConvNdMF.__init__`
(conv.py lines 20-53): the stored hyperparameters and the shapes of
the created `Parameter` tensors. -/
structure ConvInitResult where
  in_channels : ℕ
  out_channels : ℕ
  kernel_h : ℕ
  kernel_w : ℕ
  stride : ℕ
  padding : ℕ
  dilation : ℕ
  groups : ℕ
  bias : Bool
  weight_size : List ℕ
  bias_size : Option (List ℕ)
deriving DecidableEq

/-- Model of `_BayesConvNdMF.__init__`: the divisibility checks raise `ValueError`
(modelled as `Except.error ()`), an integer `kernel_size` (`Sum.inl`) is
expanded to a pair, the Python `bias` argument (`None`/`False`/`True`,
modelled as `Option Bool`) collapses to a stored boolean, and the weight
parameters are created with shape
`(out_channels, in_channels // groups, *kernel_size)`. -/
def bayesConvNdMFInit (in_channels out_channels : ℕ) (kernel_size : ℕ ⊕ (ℕ × ℕ))
    (stride padding dilation groups : ℕ) (bias : Option Bool) :
    Except Unit ConvInitResult :=
  if in_channels % groups ≠ 0 then .error ()
  else if out_channels % groups ≠ 0 then .error ()
  else
    let k : ℕ × ℕ := match kernel_size with
      | .inl a => (a, a)
      | .inr p => p
    let storedBias : Bool := match bias with
      | none => false
      | some false => false
      | some true => true
    .ok { in_channels := in_channels
          out_channels := out_channels
          kernel_h := k.1
          kernel_w := k.2
          stride := stride
          padding := padding
          dilation := dilation
          groups := groups
          bias := storedBias
          weight_size := [out_channels, in_channels / groups, k.1, k.2]
          bias_size := if storedBias then some [out_channels] else none }

/-- Modelled from the spec: `BayesLinearMF`
(`scalablebdl/mean_field/linear.py`, not among the available sources)
carries a `deterministic` flag next to its posterior parameters and other
mode state, abstracted here as an opaque indexed state. -/
structure BayesLinearMF where
  deterministic : Bool
  state : ℕ → ℚ

/-- Modelled from the spec: `BayesBatchNorm2dMF`
(`scalablebdl/mean_field/batchnorm.py`, not among the available sources)
carries a `deterministic` flag next to its remaining state. -/
structure BayesBatchNorm2dMF where
  deterministic : Bool
  state : ℕ → ℚ

/-- A module of the network as seen by `freeze`/`unfreeze`: one of the
three Bayesian layer classes matched by the `isinstance` check, or any
other module (whose state the utilities never touch). -/
inductive NetModule where
  | conv : BayesConv2dMF → NetModule
  | linear : BayesLinearMF → NetModule
  | batchnorm : BayesBatchNorm2dMF → NetModule
  | other : (ℕ → ℚ) → NetModule

/-- Model of `freeze` (bnn_utils.py lines 3-5): sets `deterministic := True` on the
three Bayesian layer classes, leaves everything else untouched. -/
def freeze : NetModule → NetModule
  | .conv l => .conv { l with deterministic := true }
  | .linear l => .linear { l with deterministic := true }
  | .batchnorm l => .batchnorm { l with deterministic := true }
  | .other s => .other s

/-- Model of `unfreeze` (bnn_utils.py lines 7-9): sets `deterministic := False` on
the three Bayesian layer classes, leaves everything else untouched. -/
def unfreeze : NetModule → NetModule
  | .conv l => .conv { l with deterministic := false }
  | .linear l => .linear { l with deterministic := false }
  | .batchnorm l => .batchnorm { l with deterministic := false }
  | .other s => .other s

/-- Value of `softmax(-1)` on one row of logits. -/
def softmaxRow (expQ : ℚ → ℚ) (row : List ℚ) : List ℚ :=
  row.map (fun x => expQ x / (row.map expQ).sum)

/-- Value of `softmax(-1)` on a `[B, C]` output matrix (list of rows). -/
def softmaxMat (expQ : ℚ → ℚ) (m : List (List ℚ)) : List (List ℚ) :=
  m.map (softmaxRow expQ)

/-- Elementwise matrix addition (`output += ...`). -/
def matAdd (a b : List (List ℚ)) : List (List ℚ) :=
  a.zipWith (fun r1 r2 => r1.zipWith (fun x y => x + y) r2) b

/-- The accumulated `output` after the inner Monte-Carlo loop
`for j in range(S): output += model(input).softmax(-1)` of
`Bayes_ensemble`.  The model is a family indexed by a global call counter
(`base` is the number of model calls made before this batch), since every
call of a Bayesian network advances the random generator and may return a
different value. -/
def mcSum {α : Type} (expQ : ℚ → ℚ) (model : ℕ → α → List (List ℚ))
    (base : ℕ) (input : α) : ℕ → List (List ℚ)
  | 0 => []
  | 1 => softmaxMat expQ (model base input)
  | (j + 2) => matAdd (mcSum expQ model base input (j + 1))
      (softmaxMat expQ (model (base + (j + 1)) input))

/-- One batch's averaged prediction: `output /= num_mc_samples`. -/
def batchAvg {α : Type} (expQ : ℚ → ℚ) (model : ℕ → α → List (List ℚ))
    (S : ℕ) (base : ℕ) (input : α) : List (List ℚ) :=
  (mcSum expQ model base input S).map (List.map (fun x => x / (S : ℚ)))

/-- The body of the `for i, (input, target) in enumerate(loader)` loop of
`Bayes_ensemble`: accumulate the loss metric and the accuracy metric on the
batch's averaged prediction, and advance the model-call counter by
`num_mc_samples`. -/
def ensembleStep {α β : Type} (expQ : ℚ → ℚ) (model : ℕ → α → List (List ℚ))
    (loss_metric acc_metric : List (List ℚ) → β → ℚ) (num_mc_samples : ℕ)
    (st : ℚ × ℚ × ℕ) (ib : α × β) : ℚ × ℚ × ℕ :=
  let output := batchAvg expQ model num_mc_samples st.2.2 ib.1
  (st.1 + loss_metric output ib.2, st.2.1 + acc_metric output ib.2,
   st.2.2 + num_mc_samples)

/-- Model of `Bayes_ensemble` (bnn_utils.py lines 16-33).  The loader is a list of
`(input, target)` batches; the `.cuda` moves are identity; the metrics are
the configurable `loss_metric`/`acc_metric` arguments; the result carries,
besides the two batch-averaged scalars, the total number of model forward
calls made (each `model(input)` in the source advances it by one).
`num_mc_samples = 0` and an empty loader divide by zero in the source
(`ZeroDivisionError`), modelled as `Except.error ()`. -/
def Bayes_ensemble {α β : Type} (expQ : ℚ → ℚ) (loader : List (α × β))
    (model : ℕ → α → List (List ℚ))
    (loss_metric acc_metric : List (List ℚ) → β → ℚ)
    (num_mc_samples : ℕ) : Except Unit (ℚ × ℚ × ℕ) :=
  if num_mc_samples = 0 ∧ loader.isEmpty = false then .error ()
  else if loader.isEmpty then .error ()
  else
    let r := loader.foldl
      (ensembleStep expQ model loss_metric acc_metric num_mc_samples) (0, 0, 0)
    .ok (r.1 / (loader.length : ℚ), r.2.1 / (loader.length : ℚ), r.2.2)

/-- The number of model forward calls a `Bayes_ensemble` run made. -/
def ensembleCalls : Except Unit (ℚ × ℚ × ℕ) → ℕ
  | .ok r => r.2.2
  | .error _ => 0

/-- A layer with the flags putting `forward` in the deterministic branch. -/
def detMode (l : BayesConv2dMF) : BayesConv2dMF :=
  { l with deterministic := true }

/-- Flags reaching the single-shared-noise branch (`single_eps`), with the
given bias configuration. -/
def seMode (l : BayesConv2dMF) (b : Bool) : BayesConv2dMF :=
  { l with deterministic := false, parallel_eval := false, single_eps := true,
           bias := b }

/-- Flags reaching the local-reparameterization branch, with the given bias
configuration. -/
def lrMode (l : BayesConv2dMF) (b : Bool) : BayesConv2dMF :=
  { l with deterministic := false, parallel_eval := false, single_eps := false,
           local_reparam := true, bias := b }

/-- Flags reaching the flipout branch, with the given bias configuration. -/
def flMode (l : BayesConv2dMF) (b : Bool) : BayesConv2dMF :=
  { l with deterministic := false, parallel_eval := false, single_eps := false,
           local_reparam := false, flipout := true, bias := b }

/-- Flags reaching the full-independent-sampling branch (no other mode flag
set), with the given bias configuration. -/
def fiMode (l : BayesConv2dMF) (b : Bool) : BayesConv2dMF :=
  { l with deterministic := false, parallel_eval := false, single_eps := false,
           local_reparam := false, flipout := false, bias := b }

/-- Flags reaching the parallel-evaluation branch, with the given bias
configuration. -/
def parMode (l : BayesConv2dMF) (b : Bool) : BayesConv2dMF :=
  { l with deterministic := false, parallel_eval := true, bias := b }

/-- The local-reparameterization output as the spec words it:
`mean = conv2d(input, weight_mu)`, `variance = conv2d(input², exp(2·psi))`,
output `= mean + sqrt(variance) * eps`, the variance clamped to the small
positive floor `1e-8` before the square root. -/
def localReparamSpec (expQ sqrtQ : ℚ → ℚ) (l : BayesConv2dMF) (input : Tensor4)
    (ns : Noise) : Tensor4 :=
  let mean := conv2d input l.weightMuT none l.stride l.padding l.dilation l.groups
  let sq : Tensor4 := { input with data := fun b c i j => input.data b c i j ^ 2 }
  let ex2 : Tensor4 :=
    { l.weightPsiT with data := fun o c i j => expQ (2 * l.weight_psi o c i j) }
  let variance := conv2d sq ex2 none l.stride l.padding l.dilation l.groups
  let vClamped : ℕ → ℕ → ℕ → ℕ → ℚ := fun b o i j =>
    max (variance.data b o i j) (1 / 100000000)
  let resData : ℕ → ℕ → ℕ → ℕ → ℚ := fun b o i j =>
    mean.data b o i j + sqrtQ (vClamped b o i j) * ns.act_eps b o i j
  { mean with data := resData }

/-- The flipout output as the spec and the claim word it:
`conv2d(input, weight_mu) + conv2d(input * sign_input, eps * exp(weight_psi)) * sign_output`,
the sign tensors being the signs of per-(batch, channel) uniform draws. -/
def flipoutSpec (expQ : ℚ → ℚ) (l : BayesConv2dMF) (input : Tensor4)
    (ns : Noise) : Tensor4 :=
  let base := conv2d input l.weightMuT none l.stride l.padding l.dilation l.groups
  let dkData : ℕ → ℕ → ℕ → ℕ → ℚ := fun o c i j =>
    ns.w_eps o c i j * expQ (l.weight_psi o c i j)
  let delta : Tensor4 := { l.weightPsiT with data := dkData }
  let signedInput : Tensor4 :=
    { input with data := fun b c i j => input.data b c i j * qsign (ns.u_in b c) }
  let pert := conv2d signedInput delta none l.stride l.padding l.dilation l.groups
  let resData : ℕ → ℕ → ℕ → ℕ → ℚ := fun b o i j =>
    base.data b o i j + pert.data b o i j * qsign (ns.u_out b o)
  { base with data := resData }

/-- Batch element `b` of a 4-d batch, as a batch of size one. -/
def Tensor4.sliceB (t : Tensor4) (b : ℕ) : Tensor4 :=
  ⟨1, t.c, t.h, t.w, fun _ c i j => t.data b c i j⟩

/-- The weight sample attributed to batch element `b` in
full-independent-sampling mode: `eps[b] * exp(psi) + mu`. -/
def sampledWeight (expQ : ℚ → ℚ) (l : BayesConv2dMF) (ns : Noise) (b : ℕ) : Tensor4 :=
  ⟨l.out_channels, l.inPerGroup, l.kernel_h, l.kernel_w,
    fun o c i j => mulExpAdd expQ (ns.batch_eps b o c i j)
      (l.weight_psi o c i j) (l.weight_mu o c i j)⟩

/-- The normalized kernel-size pair (an integer expands to a square). -/
def kernelPair : ℕ ⊕ (ℕ × ℕ) → ℕ × ℕ
  | .inl a => (a, a)
  | .inr p => p

/-- Weight shape of a successful construction, `none` on `ValueError`. -/
def initWeightSize : Except Unit ConvInitResult → Option (List ℕ)
  | .ok r => some r.weight_size
  | .error _ => none

/-- A 1-in/1-out/1-group layer with 1×1 kernel, zero posterior parameters,
and no mode flag set: concrete instance for witnesses and counterexamples. -/
def unitLayer : BayesConv2dMF where
  in_channels := 1
  out_channels := 1
  kernel_h := 1
  kernel_w := 1
  stride := 1
  padding := 0
  dilation := 1
  groups := 1
  bias := false
  weight_mu := fun _ _ _ _ => 0
  weight_psi := fun _ _ _ _ => 0
  bias_mu := fun _ => 0
  bias_psi := fun _ => 0
  deterministic := false
  num_mc_samples := 1
  parallel_eval := false
  local_reparam := false
  flipout := false
  single_eps := false

/-- A two-element batch whose two elements have identical (all-zero)
content. -/
def cInput2 : Tensor4 := ⟨2, 1, 1, 1, fun _ _ _ _ => 0⟩

/-- A concrete noise oracle whose per-batch-element weight draws differ
across batch elements (`batch_eps b ... = b`). -/
def cNoiseB : Noise where
  w_eps := fun _ _ _ _ => 1
  act_eps := fun _ _ _ _ => 1
  u_in := fun _ _ => 1
  u_out := fun _ _ => 1
  batch_eps := fun b _ _ _ _ => (b : ℚ)
  bias_eps := fun _ _ => 0

/-- Constant-one stand-in for the exponential in concrete evaluations. -/
def oneExp : ℚ → ℚ := fun _ => 1

/-- Identity stand-in for the square root in concrete evaluations. -/
def idSqrt : ℚ → ℚ := fun x => x

/-- A one-batch loader over trivial inputs/targets. -/
def cLoader : List (Unit × Unit) := [((), ())]

/-- A model whose every call returns the `1×1` logit matrix `[[1]]`. -/
def cModel : ℕ → Unit → List (List ℚ) := fun _ _ => [[1]]

/-- A trivial (constant-zero) evaluation metric. -/
def cZero : List (List ℚ) → Unit → ℚ := fun _ _ => 0

/-- C6: with `deterministic=True`, the forward output is the plain
convolution of the input with `weight_mu` (and `bias_mu` exactly when a
bias is configured), and the result does not depend on the random draws:
two calls under different noise return identical outputs. -/
theorem deterministic_forward_mean_only (expQ sqrtQ : ℚ → ℚ) (l : BayesConv2dMF)
    (input : Tensor4) (ns ns2 : Noise) :
    convForward expQ sqrtQ (detMode l) input ns =
      .ok (.t4 (conv2d input
        ⟨l.out_channels, l.in_channels / l.groups, l.kernel_h, l.kernel_w, l.weight_mu⟩
        (if l.bias then some l.bias_mu else none)
        l.stride l.padding l.dilation l.groups)) ∧
    convForward expQ sqrtQ (detMode l) input ns =
      convForward expQ sqrtQ (detMode l) input ns2 := by
  have h : ∀ n : Noise, convForward expQ sqrtQ (detMode l) input n =
      .ok (.t4 (conv2d input
        ⟨l.out_channels, l.in_channels / l.groups, l.kernel_h, l.kernel_w, l.weight_mu⟩
        (if l.bias then some l.bias_mu else none)
        l.stride l.padding l.dilation l.groups)) := fun _ => rfl
  exact ⟨h ns, (h ns).trans (h ns2).symm⟩

/-- C7: a forward call reaching the local-reparameterization branch or the
flipout branch raises the assertion error exactly when a bias is
configured; bias-free layers in those modes do not raise it. -/
theorem lr_flipout_bias_assertion (expQ sqrtQ : ℚ → ℚ) (l : BayesConv2dMF)
    (input : Tensor4) (ns : Noise) :
    convForward expQ sqrtQ (lrMode l true) input ns = .error () ∧
    convForward expQ sqrtQ (flMode l true) input ns = .error () ∧
    isErr (convForward expQ sqrtQ (lrMode l false) input ns) = false ∧
    isErr (convForward expQ sqrtQ (flMode l false) input ns) = false := by
  exact ⟨rfl, rfl, rfl, rfl⟩

/-- C10: the single-shared-noise branch (`single_eps=True`,
non-deterministic, non-parallel) also asserts the layer is bias-free: with
a bias configured the call fails before producing any output. -/
theorem single_eps_bias_assertion (expQ sqrtQ : ℚ → ℚ) (l : BayesConv2dMF)
    (input : Tensor4) (ns : Noise) :
    convForward expQ sqrtQ (seMode l true) input ns = .error () ∧
    isErr (convForward expQ sqrtQ (seMode l false) input ns) = false := by
  exact ⟨rfl, rfl⟩

/-- C9: `freeze` sets `deterministic := True` and `unfreeze` sets it to
`False` on exactly the three Bayesian layer classes, leaving every other
field of those layers and every other module untouched. -/
theorem freeze_unfreeze_toggle_deterministic_only
    (lc : BayesConv2dMF) (ll : BayesLinearMF) (lb : BayesBatchNorm2dMF)
    (s : ℕ → ℚ) :
    freeze (.conv lc) = .conv { lc with deterministic := true } ∧
    freeze (.linear ll) = .linear { ll with deterministic := true } ∧
    freeze (.batchnorm lb) = .batchnorm { lb with deterministic := true } ∧
    freeze (.other s) = .other s ∧
    unfreeze (.conv lc) = .conv { lc with deterministic := false } ∧
    unfreeze (.linear ll) = .linear { ll with deterministic := false } ∧
    unfreeze (.batchnorm lb) = .batchnorm { lb with deterministic := false } ∧
    unfreeze (.other s) = .other s := by
  exact ⟨rfl, rfl, rfl, rfl, rfl, rfl, rfl, rfl⟩

/-- C2: whenever a forward call returns, its shape is the deterministic
layer's output shape for the same input, except in the
parallel-evaluation branch, where the sample dimension `num_mc_samples`
is inserted after the batch dimension; the bias-incompatible mode/bias
combinations return no output at all. -/
theorem forward_output_shape (expQ sqrtQ : ℚ → ℚ) (l : BayesConv2dMF)
    (input : Tensor4) (ns : Noise) :
    outDims (convForward expQ sqrtQ l input ns) =
      if l.deterministic = false ∧ l.parallel_eval = false ∧ l.bias = true ∧
          (l.single_eps = true ∨ l.local_reparam = true ∨ l.flipout = true) then
        none
      else if l.deterministic = false ∧ l.parallel_eval = true then
        some [input.n, l.num_mc_samples, l.out_channels,
              convOutDim input.h l.kernel_h l.stride l.padding l.dilation,
              convOutDim input.w l.kernel_w l.stride l.padding l.dilation]
      else some (detDims l input) := by
  cases hd : l.deterministic <;> cases hp : l.parallel_eval <;>
    cases hs : l.single_eps <;> cases hlr : l.local_reparam <;>
    cases hf : l.flipout <;> cases hb : l.bias <;>
    simp [convForward, outDims, detDims, conv2d, Tensor4.dims, Tensor5.dims,
      BayesConv2dMF.weightMuT, hd, hp, hs, hlr, hf, hb]

/-- C3: for a bias-free layer in local-reparameterization mode the forward
output is `mean + sqrt(variance) * eps` with `mean = conv2d(input, weight_mu)`,
`variance = conv2d(input², exp(2*psi))`, and the variance clamped to the
floor `1e-8` before the square root. -/
theorem localreparam_matches_spec (expQ sqrtQ : ℚ → ℚ) (l : BayesConv2dMF)
    (input : Tensor4) (ns : Noise) :
    isErr (convForward expQ sqrtQ (lrMode l false) input ns) = false ∧
    (outT4 (convForward expQ sqrtQ (lrMode l false) input ns)).dims =
      (localReparamSpec expQ sqrtQ (lrMode l false) input ns).dims ∧
    ∀ b o i j : ℕ,
      (outT4 (convForward expQ sqrtQ (lrMode l false) input ns)).data b o i j =
        (localReparamSpec expQ sqrtQ (lrMode l false) input ns).data b o i j := by
  refine ⟨rfl, rfl, ?_⟩
  intro b o i j
  have hfun : (fun o c i j => expQ (l.weight_psi o c i j * 2))
      = fun o c i j => expQ (2 * l.weight_psi o c i j) := by
    funext o c i j
    rw [mul_comm]
  simp [convForward, localReparamSpec, outT4, lrMode,
    BayesConv2dMF.weightMuT, BayesConv2dMF.weightPsiT, BayesConv2dMF.inPerGroup]
  rw [hfun]
  ring

/-- C5: for a bias-free layer in flipout mode the forward output is
`conv2d(input, weight_mu) + conv2d(input * sign_input, eps * exp(weight_psi)) * sign_output`,
and the sign factors (signs of nonzero uniform draws, one per batch element
along input channels resp. output channels) lie in `{-1, +1}`. -/
theorem flipout_matches_spec (expQ sqrtQ : ℚ → ℚ) (l : BayesConv2dMF)
    (input : Tensor4) (ns : Noise) (b c o : ℕ)
    (hb : ns.u_in b c ≠ 0) (ho : ns.u_out b o ≠ 0) :
    convForward expQ sqrtQ (flMode l false) input ns =
      .ok (.t4 (flipoutSpec expQ (flMode l false) input ns)) ∧
    (qsign (ns.u_in b c) = -1 ∨ qsign (ns.u_in b c) = 1) ∧
    (qsign (ns.u_out b o) = -1 ∨ qsign (ns.u_out b o) = 1) := by
  have hq : ∀ x : ℚ, x ≠ 0 → qsign x = -1 ∨ qsign x = 1 := by
    intro x hx
    unfold qsign
    rcases lt_trichotomy x 0 with h | h | h
    · left
      rw [if_pos h]
    · exact absurd h hx
    · right
      rw [if_neg (not_lt.mpr h.le), if_neg hx]
  exact ⟨rfl, hq _ hb, hq _ ho⟩

/-- C8: construction fails with `ValueError` exactly when `groups` does not
divide `in_channels` or `out_channels`; when both divide, construction
succeeds and the weight tensors have shape
`(out_channels, in_channels // groups, *kernel_size)`.  (`0 < groups`
keeps the statement on the domain where the Python `%` itself is defined:
at `groups = 0` Python raises `ZeroDivisionError` instead.) -/
theorem init_groups_check_and_weight_shape (Cin Cout : ℕ) (k : ℕ ⊕ (ℕ × ℕ))
    (s p d G : ℕ) (b : Option Bool) (hG : 0 < G) :
    (¬ (G ∣ Cin) ∨ ¬ (G ∣ Cout) →
      bayesConvNdMFInit Cin Cout k s p d G b = .error ()) ∧
    (G ∣ Cin → G ∣ Cout →
      initWeightSize (bayesConvNdMFInit Cin Cout k s p d G b) =
        some [Cout, Cin / G, (kernelPair k).1, (kernelPair k).2]) := by
  have hmod : ∀ n : ℕ, n % G = 0 ↔ G ∣ n := by
    intro n
    exact Nat.dvd_iff_mod_eq_zero.symm
  constructor
  · intro h
    rcases h with h | h
    · have h1 : Cin % G ≠ 0 := fun hm => h ((hmod Cin).mp hm)
      simp [bayesConvNdMFInit, h1]
    · by_cases h1 : Cin % G = 0
      · have h2 : Cout % G ≠ 0 := fun hm => h ((hmod Cout).mp hm)
        simp [bayesConvNdMFInit, h1, h2]
      · simp [bayesConvNdMFInit, h1]
  · intro h1 h2
    have m1 : Cin % G = 0 := (hmod Cin).mpr h1
    have m2 : Cout % G = 0 := (hmod Cout).mpr h2
    cases k <;> simp [bayesConvNdMFInit, m1, m2, initWeightSize, kernelPair]

/-- C4 (amended): in full-independent-sampling mode the single grouped
convolution (with `groups * batch` groups, the batch folded into the
groups dimension) computes, at every batch element `b`, exactly the
convolution of that element with its own weight sample
`eps[b] * exp(psi) + mu`; and batch elements whose noise slices differ
receive different effective weights (whenever the weight-std factor is
nonzero there). -/
theorem full_indep_forward (expQ sqrtQ : ℚ → ℚ) (l : BayesConv2dMF)
    (input : Tensor4) (ns : Noise)
    (hc : l.in_channels = input.c)
    (hdc : l.groups ∣ l.in_channels) (hdo : l.groups ∣ l.out_channels)
    (hO : 0 < l.out_channels)
    (b o i j : ℕ) (hb : b < input.n) (ho : o < l.out_channels)
    (b2 o2 c2 i2 j2 : ℕ)
    (hne : ns.batch_eps b o2 c2 i2 j2 ≠ ns.batch_eps b2 o2 c2 i2 j2)
    (hexp : expQ (l.weight_psi o2 c2 i2 j2) ≠ 0) :
    (outT4 (convForward expQ sqrtQ (fiMode l false) input ns)).data b o i j =
      (conv2d (Tensor4.sliceB input b) (sampledWeight expQ l ns b) none
        l.stride l.padding l.dilation l.groups).data 0 o i j ∧
    (sampledWeight expQ l ns b).data o2 c2 i2 j2 ≠
      (sampledWeight expQ l ns b2).data o2 c2 i2 j2 := by
  have hG : 0 < l.groups := by
    rcases Nat.eq_zero_or_pos l.groups with h | h
    · rw [h] at hdo
      have := Nat.eq_zero_of_zero_dvd hdo
      omega
    · exact h
  have hm : 0 < l.out_channels / l.groups :=
    Nat.div_pos (Nat.le_of_dvd hO hdo) hG
  have hbs : 0 < input.n := lt_of_le_of_lt (Nat.zero_le b) hb
  have hOm : l.groups * (l.out_channels / l.groups) = l.out_channels :=
    Nat.mul_div_cancel' hdo
  have hGCg : l.groups * (l.in_channels / l.groups) = l.in_channels :=
    Nat.mul_div_cancel' hdc
  constructor
  · have hkey1 : input.n * l.out_channels / (l.groups * input.n) =
        l.out_channels / l.groups := by
      have h1 : input.n * l.out_channels =
          (l.groups * input.n) * (l.out_channels / l.groups) := by
        rw [mul_comm l.groups input.n, mul_assoc, hOm]
      rw [h1, Nat.mul_div_cancel_left _ (Nat.mul_pos hG hbs)]
    have hkey2 : (b * l.out_channels + o) / (l.out_channels / l.groups) =
        b * l.groups + o / (l.out_channels / l.groups) := by
      have h1 : b * l.out_channels + o =
          (l.out_channels / l.groups) * (b * l.groups) + o := by
        rw [mul_comm (l.out_channels / l.groups) (b * l.groups), mul_assoc, hOm]
      rw [h1, Nat.mul_add_div hm]
    have hdivO : (b * l.out_channels + o) / l.out_channels = b := by
      have h1 : b * l.out_channels + o = l.out_channels * b + o := by ring
      rw [h1, Nat.mul_add_div hO, Nat.div_eq_of_lt ho, add_zero]
    have hmodO : (b * l.out_channels + o) % l.out_channels = o := by
      have h1 : b * l.out_channels + o = o + b * l.out_channels := by ring
      rw [h1, Nat.add_mul_mod_self_right, Nat.mod_eq_of_lt ho]
    have homlt : o / (l.out_channels / l.groups) < l.groups := by
      rw [Nat.div_lt_iff_lt_mul hm]
      calc o < l.out_channels := ho
        _ = l.groups * (l.out_channels / l.groups) := hOm.symm
        _ = l.groups * (l.out_channels / l.groups) := rfl
    show (conv2d
        ⟨1, input.n * input.c, input.h, input.w,
          fun _ q y x => input.data (q / input.c) (q % input.c) y x⟩
        ⟨input.n * l.out_channels, l.in_channels / l.groups, l.kernel_h, l.kernel_w,
          fun q c y x =>
            mulExpAdd expQ
              (ns.batch_eps (q / l.out_channels) (q % l.out_channels) c y x)
              (l.weight_psi (q % l.out_channels) c y x)
              (l.weight_mu (q % l.out_channels) c y x)⟩
        none l.stride l.padding l.dilation (l.groups * input.n)).data
          0 (b * l.out_channels + o) i j =
      (conv2d (Tensor4.sliceB input b) (sampledWeight expQ l ns b) none
        l.stride l.padding l.dilation l.groups).data 0 o i j
    simp only [conv2d, Tensor4.sliceB, sampledWeight, BayesConv2dMF.inPerGroup,
      add_zero]
    refine Finset.sum_congr rfl fun ic hic => ?_
    refine Finset.sum_congr rfl fun ki _ => ?_
    refine Finset.sum_congr rfl fun kj _ => ?_
    have hiclt : ic < l.in_channels / l.groups := Finset.mem_range.mp hic
    have hrlt : o / (l.out_channels / l.groups) * (l.in_channels / l.groups) + ic
        < input.c := by
      have h1 : o / (l.out_channels / l.groups) * (l.in_channels / l.groups) + ic
          < (o / (l.out_channels / l.groups) + 1) * (l.in_channels / l.groups) := by
        rw [add_mul, one_mul]
        exact Nat.add_lt_add_left hiclt _
      have h2 : (o / (l.out_channels / l.groups) + 1) * (l.in_channels / l.groups)
          ≤ l.groups * (l.in_channels / l.groups) :=
        Nat.mul_le_mul_right _ (Nat.succ_le_of_lt homlt)
      have h3 : l.groups * (l.in_channels / l.groups) = input.c := by
        rw [hGCg, hc]
      omega
    have hC : 0 < input.c := lt_of_le_of_lt (Nat.zero_le _) hrlt
    have hch : (b * l.out_channels + o) /
          (input.n * l.out_channels / (l.groups * input.n)) *
          (l.in_channels / l.groups) + ic =
        b * input.c +
          (o / (l.out_channels / l.groups) * (l.in_channels / l.groups) + ic) := by
      rw [hkey1, hkey2, add_mul]
      have h4 : b * l.groups * (l.in_channels / l.groups) = b * input.c := by
        rw [mul_assoc, hGCg, hc]
      rw [h4]
      ring
    have hwt : mulExpAdd expQ
        (ns.batch_eps ((b * l.out_channels + o) / l.out_channels)
          ((b * l.out_channels + o) % l.out_channels) ic ki kj)
        (l.weight_psi ((b * l.out_channels + o) % l.out_channels) ic ki kj)
        (l.weight_mu ((b * l.out_channels + o) % l.out_channels) ic ki kj) =
        mulExpAdd expQ (ns.batch_eps b o ic ki kj)
          (l.weight_psi o ic ki kj) (l.weight_mu o ic ki kj) := by
      rw [hdivO, hmodO]
    rw [hch, hwt]
    simp only [Tensor4.padAt]
    split_ifs with hcond
    · have hdivC : (b * input.c +
          (o / (l.out_channels / l.groups) * (l.in_channels / l.groups) + ic)) /
            input.c = b := by
        have h1 : b * input.c +
            (o / (l.out_channels / l.groups) * (l.in_channels / l.groups) + ic) =
            input.c * b +
            (o / (l.out_channels / l.groups) * (l.in_channels / l.groups) + ic) := by
          ring
        rw [h1, Nat.mul_add_div hC, Nat.div_eq_of_lt hrlt, add_zero]
      have hmodC : (b * input.c +
          (o / (l.out_channels / l.groups) * (l.in_channels / l.groups) + ic)) %
            input.c =
          o / (l.out_channels / l.groups) * (l.in_channels / l.groups) + ic := by
        have h1 : b * input.c +
            (o / (l.out_channels / l.groups) * (l.in_channels / l.groups) + ic) =
            (o / (l.out_channels / l.groups) * (l.in_channels / l.groups) + ic)
              + b * input.c := by
          ring
        rw [h1, Nat.add_mul_mod_self_right, Nat.mod_eq_of_lt hrlt]
      rw [hdivC, hmodC]
    · rfl
  · simp only [sampledWeight, mulExpAdd]
    intro heq
    have h1 : ns.batch_eps b o2 c2 i2 j2 * expQ (l.weight_psi o2 c2 i2 j2) =
        ns.batch_eps b2 o2 c2 i2 j2 * expQ (l.weight_psi o2 c2 i2 j2) :=
      add_right_cancel heq
    exact hne (mul_right_cancel₀ hexp h1)

/-- C4 counterexample: on an all-zero two-element batch (identical input
content) with distinct per-element noise, the two batch elements receive
different effective weights yet identical outputs. -/
theorem full_indep_zero_input_outputs_equal :
    (sampledWeight oneExp unitLayer cNoiseB 0).data 0 0 0 0 ≠
      (sampledWeight oneExp unitLayer cNoiseB 1).data 0 0 0 0 ∧
    cInput2.data 0 0 0 0 = cInput2.data 1 0 0 0 ∧
    (outT4 (convForward oneExp idSqrt (fiMode unitLayer false) cInput2 cNoiseB)).data
        0 0 0 0 =
      (outT4 (convForward oneExp idSqrt (fiMode unitLayer false) cInput2 cNoiseB)).data
        1 0 0 0 := by
  refine ⟨?_, rfl, ?_⟩
  · simp [sampledWeight, mulExpAdd, cNoiseB, unitLayer, oneExp]
  · simp [convForward, fiMode, unitLayer, cInput2, cNoiseB, conv2d, outT4,
      Tensor4.padAt, mulExpAdd, oneExp, idSqrt, BayesConv2dMF.inPerGroup,
      Finset.sum_range_succ]

/-- Witness for `full_indep_forward` at the concrete one-channel layer,
two-element zero batch and batch-indexed noise. -/
theorem full_indep_forward_witness :
    unitLayer.in_channels = cInput2.c ∧
    unitLayer.groups ∣ unitLayer.in_channels ∧
    unitLayer.groups ∣ unitLayer.out_channels ∧
    0 < unitLayer.out_channels ∧
    0 < cInput2.n ∧
    cNoiseB.batch_eps 0 0 0 0 0 ≠ cNoiseB.batch_eps 1 0 0 0 0 ∧
    oneExp (unitLayer.weight_psi 0 0 0 0) ≠ 0 ∧
    ((outT4 (convForward oneExp idSqrt (fiMode unitLayer false) cInput2 cNoiseB)).data
        0 0 0 0 =
      (conv2d (Tensor4.sliceB cInput2 0) (sampledWeight oneExp unitLayer cNoiseB 0)
        none unitLayer.stride unitLayer.padding unitLayer.dilation
        unitLayer.groups).data 0 0 0 0 ∧
     (sampledWeight oneExp unitLayer cNoiseB 0).data 0 0 0 0 ≠
       (sampledWeight oneExp unitLayer cNoiseB 1).data 0 0 0 0) :=
  ⟨by decide, by decide, by decide, by decide, by decide,
    by norm_num [cNoiseB], by norm_num [oneExp],
    full_indep_forward oneExp idSqrt unitLayer cInput2 cNoiseB (by decide)
      (by decide) (by decide) (by decide) 0 0 0 0 (by decide) (by decide)
      1 0 0 0 0 (by norm_num [cNoiseB]) (by norm_num [oneExp])⟩

/-- Unrolled evaluation loop of `Bayes_ensemble`: starting from
accumulators `(a, b)` and a model-call counter `k * S`, folding the batches
accumulates the two metrics of every batch's averaged prediction (batch at
overall position `i` using model calls `i*S .. i*S + S - 1`) and makes
`S` model calls per batch. -/
theorem ensemble_foldl_eq {α β : Type} (expQ : ℚ → ℚ)
    (model : ℕ → α → List (List ℚ))
    (lossM accM : List (List ℚ) → β → ℚ) (S : ℕ) :
    ∀ (ld : List (α × β)) (a b : ℚ) (k : ℕ),
      ld.foldl (ensembleStep expQ model lossM accM S) (a, b, k * S) =
        (a + ((ld.enumFrom k).map
          (fun p => lossM (batchAvg expQ model S (p.1 * S) p.2.1) p.2.2)).sum,
         b + ((ld.enumFrom k).map
          (fun p => accM (batchAvg expQ model S (p.1 * S) p.2.1) p.2.2)).sum,
         (k + ld.length) * S) := by
  intro ld
  induction ld with
  | nil =>
    intro a b k
    simp
  | cons x xs ih =>
    intro a b k
    have hstep : k * S + S = (k + 1) * S := by ring
    simp only [List.foldl_cons, List.enumFrom, List.map_cons, List.sum_cons,
      ensembleStep]
    rw [hstep, ih]
    simp only [Prod.mk.injEq, List.length_cons]
    refine ⟨by ring, by ring, by ring⟩

/-- C1 (amended): for a nonzero sample count and a nonempty loader,
`Bayes_ensemble` runs the network `num_mc_samples` times per batch (batch
`i` using calls `i*S .. i*S + S - 1`), applies softmax to each call's
output, averages across the calls, accumulates the two metrics over the
loader, and returns the batch-averaged scalars together with the total
call count `len(loader) * num_mc_samples`. -/
theorem ensemble_averages_and_call_count {α β : Type} (expQ : ℚ → ℚ)
    (loader : List (α × β)) (model : ℕ → α → List (List ℚ))
    (lossM accM : List (List ℚ) → β → ℚ) (S : ℕ)
    (hS : S ≠ 0) (hl : loader ≠ []) :
    Bayes_ensemble expQ loader model lossM accM S =
      .ok ((loader.enum.map
              (fun p => lossM (batchAvg expQ model S (p.1 * S) p.2.1) p.2.2)).sum
              / (loader.length : ℚ),
            (loader.enum.map
              (fun p => accM (batchAvg expQ model S (p.1 * S) p.2.1) p.2.2)).sum
              / (loader.length : ℚ),
            loader.length * S) := by
  have hle : loader.isEmpty = false := by
    cases loader with
    | nil => exact absurd rfl hl
    | cons x xs => rfl
  have hfold := ensemble_foldl_eq expQ model lossM accM S loader 0 0 0
  rw [Nat.zero_mul] at hfold
  simp only [Bayes_ensemble, hle, hS, Bool.false_eq_true, and_false, if_false,
    ite_false, if_neg, hfold]
  simp [List.enum, hfold, hS]

/-- C1 counterexample: a one-batch loader evaluated with
`num_mc_samples = 2` makes 2 model forward calls, refuting that the network
runs exactly once per batch. -/
theorem ensemble_not_one_call_per_batch :
    ensembleCalls (Bayes_ensemble oneExp cLoader cModel cZero cZero 2) = 2 ∧
    cLoader.length = 1 ∧ (2 : ℕ) ≠ 1 := by decide

/-- Witness for `ensemble_averages_and_call_count` on the concrete
one-batch loader with `num_mc_samples = 2`. -/
theorem ensemble_averages_witness :
    (2 : ℕ) ≠ 0 ∧ cLoader ≠ [] ∧
    Bayes_ensemble oneExp cLoader cModel cZero cZero 2 =
      .ok ((cLoader.enum.map
              (fun p => cZero (batchAvg oneExp cModel 2 (p.1 * 2) p.2.1) p.2.2)).sum
              / (cLoader.length : ℚ),
            (cLoader.enum.map
              (fun p => cZero (batchAvg oneExp cModel 2 (p.1 * 2) p.2.1) p.2.2)).sum
              / (cLoader.length : ℚ),
            cLoader.length * 2) :=
  ⟨by decide, by decide,
    ensemble_averages_and_call_count oneExp cLoader cModel cZero cZero 2
      (by decide) (by decide)⟩

/-- Witness for `init_groups_check_and_weight_shape`: `groups = 2`,
`in_channels = 4`, `out_channels = 6`, integer kernel size 3. -/
theorem init_groups_check_witness :
    0 < 2 ∧
    ((¬ ((2 : ℕ) ∣ 4) ∨ ¬ ((2 : ℕ) ∣ 6) →
        bayesConvNdMFInit 4 6 (.inl 3) 1 0 1 2 none = .error ()) ∧
     ((2 : ℕ) ∣ 4 → (2 : ℕ) ∣ 6 →
        initWeightSize (bayesConvNdMFInit 4 6 (.inl 3) 1 0 1 2 none) =
          some [6, 4 / 2, (kernelPair (.inl 3)).1, (kernelPair (.inl 3)).2])) :=
  ⟨by decide, init_groups_check_and_weight_shape 4 6 (.inl 3) 1 0 1 2 none (by decide)⟩

/-- Witness for `flipout_matches_spec` at a concrete layer, input and
noise oracle. -/
theorem flipout_matches_spec_witness :
    cNoiseB.u_in 0 0 ≠ 0 ∧ cNoiseB.u_out 0 0 ≠ 0 ∧
    (convForward oneExp idSqrt (flMode unitLayer false) cInput2 cNoiseB =
      .ok (.t4 (flipoutSpec oneExp (flMode unitLayer false) cInput2 cNoiseB)) ∧
    (qsign (cNoiseB.u_in 0 0) = -1 ∨ qsign (cNoiseB.u_in 0 0) = 1) ∧
    (qsign (cNoiseB.u_out 0 0) = -1 ∨ qsign (cNoiseB.u_out 0 0) = 1)) :=
  ⟨by decide, by decide,
    flipout_matches_spec oneExp idSqrt unitLayer cInput2 cNoiseB 0 0 0
      (by decide) (by decide)⟩

end ScalableBDL
